import Mathlib

/-
Verification of the derived-metrics and detection pipeline of the social-media
analytics dashboard (src/1.py): metric derivation, sidebar filtering, the
quantile-threshold fraud detector, risk-level banding, and the
groupby-mean/idxmax aggregations behind the best-posting-time and
content-strategy lookups.

Numeric columns are modelled over the rationals; a pandas NaN cell
(engagement_rate when reach is zero) is modelled as Option.none, and every
comparison against none is false, matching NaN comparison semantics.  A column
that a stage has not yet written is likewise an Option field holding none.
-/

namespace Dashboard

/-- One row of the loaded dataframe (one engagement event).  The date column
itself is abstracted away; the calendar fields extracted from it (year,
post_hour, day_of_week) are kept as stored fields.  The columns revenue_generated
and suspicious are written by later pipeline stages (lines 28 and 57 of
src/1.py) and are none until then. -/
structure Row where
  platform : String
  content_type : String
  year : Int
  post_hour : Int
  day_of_week : String
  campaign_name : Option String
  likes : ℚ
  comments : ℚ
  shares : ℚ
  reach : ℚ
  ad_spend : ℚ
  roi : ℚ
  engagement : ℚ
  engagement_rate : Option ℚ
  revenue_generated : Option ℚ := none
  suspicious : Option Bool := none
  deriving DecidableEq

/-- Metric Deriver, line 28 of src/1.py: writes the revenue_generated column
onto the loaded table in place (df gains the column). -/
def deriveRow (r : Row) : Row :=
  { r with revenue_generated := some (r.ad_spend * (1 + r.roi)) }

/-- Line 28 applied to the whole table. -/
def deriveMetrics (l : List Row) : List Row :=
  l.map deriveRow

/-- Modelled from the spec: the computation of the engagement column is not in
src/1.py (the column arrives precomputed in the CSV, and the repository
variant that derives it is not among the provided sources).  Spec section 3:
engagement = likes + comments + shares. -/
def engagementOf (r : Row) : ℚ :=
  r.likes + r.comments + r.shares

/-- Modelled from the spec: the Metric Deriver step populating the engagement
column from the stored fields. -/
def deriveEngagementRow (r : Row) : Row :=
  { r with engagement := engagementOf r }

/-- Sidebar filter criteria (lines 36-44 of src/1.py): the selected platform,
content-type and year values of the three multiselect widgets. -/
structure FilterCriteria where
  platforms : List String
  content_types : List String
  years : List Int
  deriving DecidableEq

/-- Membership test of one row against the three isin constraints of
lines 47-49 of src/1.py.  Series.isin is plain membership: isin of the empty
selection is false for every value. -/
def passes (c : FilterCriteria) (r : Row) : Bool :=
  decide (r.platform ∈ c.platforms) &&
  decide (r.content_type ∈ c.content_types) &&
  decide (r.year ∈ c.years)

/-- Filter Engine, lines 46-50 of src/1.py: boolean-mask row selection,
order preserving. -/
def applyFilter (l : List Row) (c : FilterCriteria) : List Row :=
  l.filter (passes c)

/-- Series.quantile with the default linear interpolation, over an exact
rational field: for the ascending sorted values v of length n and
h = q * (n - 1), the result is v_i + (h - i) * (v_(i+1) - v_i) where
i = floor h.  On an empty series pandas returns NaN, modelled as none.
Intended for q between 0 and 1. -/
def quantileLinear (q : ℚ) (l : List ℚ) : Option ℚ :=
  if l = [] then none
  else
    let s := l.insertionSort (· ≤ ·)
    let h : ℚ := q * ((l.length : ℚ) - 1)
    let i : ℕ := (Int.floor h).toNat
    let vi := s.getD i 0
    let vj := s.getD (i + 1) vi
    some (vi + (h - (i : ℚ)) * (vj - vi))

/-- Fraud-detection threshold, line 55 of src/1.py: the 0.90 quantile of the
engagement column of the currently filtered table. -/
def high_engagement_threshold (l : List Row) : Option ℚ :=
  quantileLinear (9 / 10) (l.map (fun r => r.engagement))

/-- The boolean computed for one row by lines 57-60 of src/1.py: engagement
strictly above the threshold and roi at most zero.  When the threshold is NaN
(empty table) every comparison is false. -/
def suspiciousFlag (l : List Row) (r : Row) : Bool :=
  match high_engagement_threshold l with
  | none => false
  | some t => decide (t < r.engagement) && decide (r.roi ≤ 0)

/-- Lines 57-60 of src/1.py: the suspicious column is assigned onto
filtered_df in place, so the name filtered_df used by every later tab
(lines 101-291) denotes this flagged table. -/
def addSuspicious (l : List Row) : List Row :=
  let t? := high_engagement_threshold l
  l.map (fun r =>
    { r with suspicious := some (match t? with
        | none => false
        | some t => decide (t < r.engagement) && decide (r.roi ≤ 0)) })

/-- The table bound to the name filtered_df after line 60 of src/1.py, as
consumed by all seven tabs: filtering followed by the in-place flag write. -/
def filtered_df_final (df : List Row) (c : FilterCriteria) : List Row :=
  addSuspicious (applyFilter (deriveMetrics df) c)

/-- Line 62 of src/1.py: the rows of the flagged table whose suspicious
column is true. -/
def fraud_df (l : List Row) : List Row :=
  l.filter (fun r => r.suspicious.getD false)

/-- Line 160 of src/1.py: the percentage of suspicious rows, defined as 0
when the table is empty. -/
def fraud_probability (l : List Row) : ℚ :=
  if l.length ≠ 0 then ((fraud_df l).length : ℚ) / (l.length : ℚ) * 100 else 0

/-- Risk bucket of lines 162-167 of src/1.py. -/
inductive RiskLevel where
  | LOW
  | MEDIUM
  | HIGH
  deriving DecidableEq

/-- Lines 162-167 of src/1.py: strict-less-than banding of the fraud
probability. -/
def risk_level (p : ℚ) : RiskLevel :=
  if p < 5 then RiskLevel.LOW
  else if p < 15 then RiskLevel.MEDIUM
  else RiskLevel.HIGH

/-- Mean of a list of rationals.  Used only on the nonempty per-group value
lists produced by grouping, so the zero-length branch never arises there. -/
def listMean (l : List ℚ) : ℚ :=
  l.sum / (l.length : ℚ)

/-- Series.mean with NaN rows dropped: none on an all-NaN or empty column,
matching pandas returning NaN there. -/
def listMeanOpt (l : List ℚ) : Option ℚ :=
  if l = [] then none else some (listMean l)

/-- The groupby-mean-reset_index aggregation shape used throughout src/1.py
(lines 103-107, 115-119, 142-146, 263-271): one output row per distinct key,
keys in ascending sorted order (pandas groupby sorts keys by default), the
value being the mean of the column over the rows of the group. -/
def groupMean {κ : Type} [LinearOrder κ] [DecidableEq κ]
    (key : Row → κ) (val : Row → ℚ) (l : List Row) : List (κ × ℚ) :=
  ((l.map key).dedup.insertionSort (· ≤ ·)).map
    (fun k => (k, listMean ((l.filter (fun r => decide (key r = k))).map val)))

/-- Distinct values in order of first appearance (the order pandas would use
with sort=False); used only to state the tie-break rule the spec claims. -/
def firstSeenKeys {κ : Type} [DecidableEq κ] : List κ → List κ
  | [] => []
  | k :: ks => k :: (firstSeenKeys ks).filter (fun x => decide (x ≠ k))

/-- Definition following the words of the spec for the tie-break claim: the
same aggregation but with groups emitted in first-seen order instead of
sorted key order. -/
def groupMeanFirstSeen {κ : Type} [DecidableEq κ]
    (key : Row → κ) (val : Row → ℚ) (l : List Row) : List (κ × ℚ) :=
  (firstSeenKeys (l.map key)).map
    (fun k => (k, listMean ((l.filter (fun r => decide (key r = k))).map val)))

/-- Scan for the entry of maximal value in x :: xs, keeping the earlier entry
on exact ties (a later entry replaces the current best only when strictly
greater). -/
def firstMaxAux {κ : Type} (x : κ × ℚ) : List (κ × ℚ) → κ × ℚ
  | [] => x
  | y :: ys =>
    let m := firstMaxAux y ys
    if x.2 < m.2 then m else x

/-- Series.idxmax semantics: the first entry attaining the maximum value; none
on an empty series (where pandas raises ValueError). -/
def firstMax {κ : Type} : List (κ × ℚ) → Option (κ × ℚ)
  | [] => none
  | x :: xs => some (firstMaxAux x xs)

/-- Wrapper giving idxmax the Except shape of the call sites: on an empty
aggregation the lookup raises ValueError (lines 149, 279-287 of src/1.py have
no emptiness guard), modelled as Except.error with the pandas message. -/
def argmaxKey {κ : Type} (ps : List (κ × ℚ)) : Except String κ :=
  match firstMax ps with
  | none => Except.error "attempt to get argmax of an empty sequence"
  | some m => Except.ok m.1

/-- Lines 142-146 of src/1.py: mean engagement per posting hour. -/
def hourly (l : List Row) : List (Int × ℚ) :=
  groupMean (fun r => r.post_hour) (fun r => r.engagement) l

/-- Line 149 of src/1.py: the hour of the row selected by idxmax on the
hourly aggregation. -/
def best_hour (l : List Row) : Except String Int :=
  argmaxKey (hourly l)

/-- Lines 263-281 of src/1.py: mean engagement per content type, then the
content type selected by idxmax. -/
def best_eng (l : List Row) : Except String String :=
  argmaxKey (groupMean (fun r => r.content_type) (fun r => r.engagement) l)

/-- Definition following the words of the spec for the tie-break claim:
best hour with groups in first-seen order. -/
def bestHourFirstSeen (l : List Row) : Except String Int :=
  argmaxKey (groupMeanFirstSeen (fun r => r.post_hour) (fun r => r.engagement) l)

/-- Modelled from the spec: the high-impact detector does not appear in
src/1.py (it lives in a repository variant not among the provided sources).
Spec section 4.4: the 0.80 quantile of engagement over the filtered set. -/
def engagement_cutoff (l : List Row) : Option ℚ :=
  quantileLinear (8 / 10) (l.map (fun r => r.engagement))

/-- Modelled from the spec: mean engagement_rate over the filtered set with
NaN rows excluded from the mean. -/
def avg_rate (l : List Row) : Option ℚ :=
  listMeanOpt (l.filterMap (fun r => r.engagement_rate))

/-- Modelled from the spec: an event is high_impact iff engagement is at
least the 80th-percentile cutoff, engagement_rate is at least the average
rate, and roi is strictly positive; a NaN engagement_rate compares false. -/
def highImpactFlag (l : List Row) (r : Row) : Bool :=
  match engagement_cutoff l, avg_rate l, r.engagement_rate with
  | some cutoff, some a, some er =>
      decide (cutoff ≤ r.engagement) && decide (a ≤ er) && decide (0 < r.roi)
  | _, _, _ => false

/-- Forgets the suspicious column: used to state that the flag write changes
nothing else of the table. -/
def eraseFlag (r : Row) : Row :=
  { r with suspicious := none }

/-- Forgets the revenue_generated column: used to state that the metric
derivation changes nothing else of the table. -/
def eraseRevenue (r : Row) : Row :=
  { r with revenue_generated := none }

/-- Concrete example row used by the witness and counterexample theorems. -/
def row0 : Row :=
  { platform := "X", content_type := "video", year := 2024, post_hour := 9,
    day_of_week := "Monday", campaign_name := none,
    likes := 1, comments := 1, shares := 1, reach := 10, ad_spend := 2,
    roi := 0, engagement := 3, engagement_rate := some 30 }

/-- Criteria selecting every value present in row0 (the all-selected widget
default). -/
def critAll : FilterCriteria :=
  { platforms := ["X"], content_types := ["video"], years := [2024] }

/-- Criteria with every dimension deselected. -/
def critEmpty : FilterCriteria :=
  { platforms := [], content_types := [], years := [] }

/-- Criteria selecting a platform absent from the data. -/
def critMissing : FilterCriteria :=
  { platforms := ["Y"], content_types := ["video"], years := [2024] }

/-- Row posted at hour 5, first in input order, engagement 10. -/
def rowH5 : Row :=
  { row0 with post_hour := 5, engagement := 10 }

/-- Row posted at hour 3, second in input order, engagement 10: ties with
rowH5 on mean engagement. -/
def rowH3 : Row :=
  { row0 with post_hour := 3, engagement := 10 }

end Dashboard

namespace Dashboard

/-- Unfolding lemma: the in-place flag assignment equals mapping the per-row
flag over the table. -/
theorem addSuspicious_eq (l : List Row) :
    addSuspicious l = l.map (fun x => { x with suspicious := some (suspiciousFlag l x) }) :=
  rfl

/-- C6: for every event, the spec-modelled engagement derivation yields
likes + comments + shares exactly, and the Metric Deriver of line 28 yields
revenue_generated = ad_spend * (1 + roi) exactly; both are pure functions of
the stored fields. -/
theorem derived_fields_formulas (r : Row) :
    (deriveEngagementRow r).engagement = r.likes + r.comments + r.shares ∧
    (deriveRow r).revenue_generated = some (r.ad_spend * (1 + r.roi)) :=
  ⟨rfl, rfl⟩

/-- C9: filtering is idempotent; applying the same criteria twice equals
applying them once. -/
theorem applyFilter_idempotent (l : List Row) (c : FilterCriteria) :
    applyFilter (applyFilter l c) c = applyFilter l c := by
  simp [applyFilter, List.filter_filter]

/-- C4 counterexample: on a one-row table, criteria with every dimension
empty filter out everything instead of imposing no restriction, refuting the
claimed empty-means-all semantics. -/
theorem filter_empty_criteria_excludes_all :
    applyFilter [row0] critEmpty = [] ∧ applyFilter [row0] critEmpty ≠ [row0] := by
  decide

/-- C4 amended: an event passes iff each dimension list contains its value,
so criteria listing every value present in the table (the all-selected widget
default) return it unchanged and in order, while all-empty criteria return
the empty table. -/
theorem applyFilter_amended (l : List Row) (c : FilterCriteria)
    (hc : ∀ r ∈ l, r.platform ∈ c.platforms ∧ r.content_type ∈ c.content_types ∧
      r.year ∈ c.years) :
    applyFilter l c = l ∧ applyFilter l critEmpty = [] := by
  constructor
  · refine List.filter_eq_self.mpr ?_
    intro r hr
    obtain ⟨h1, h2, h3⟩ := hc r hr
    simp [passes, h1, h2, h3]
  · refine List.filter_eq_nil_iff.mpr ?_
    intro r hr
    simp [passes, critEmpty]

/-- C4 witness: the amended filter semantics evaluated on a concrete one-row
table with all-selected criteria. -/
theorem applyFilter_amended_witness :
    (∀ r ∈ [row0], r.platform ∈ critAll.platforms ∧
      r.content_type ∈ critAll.content_types ∧ r.year ∈ critAll.years) ∧
    (applyFilter [row0] critAll = [row0] ∧ applyFilter [row0] critEmpty = []) :=
  ⟨by decide, applyFilter_amended [row0] critAll (by decide)⟩

/-- C5: aggregations of an empty filtered table are empty, but the best-X
lookups (lines 149 and 279-287 of src/1.py) hit idxmax on the empty
aggregation and raise ValueError instead of returning a defined result; the
scenario is produced by criteria selecting a platform absent from the data. -/
theorem empty_filter_aggregations_and_lookups :
    hourly ([] : List Row) = [] ∧
    groupMean (fun r => r.platform) (fun r => r.engagement) ([] : List Row) = [] ∧
    applyFilter (deriveMetrics [row0]) critMissing = [] ∧
    best_hour (applyFilter (deriveMetrics [row0]) critMissing) =
      Except.error "attempt to get argmax of an empty sequence" ∧
    best_eng (applyFilter (deriveMetrics [row0]) critMissing) =
      Except.error "attempt to get argmax of an empty sequence" := by
  refine ⟨rfl, rfl, by decide, ?_, ?_⟩ <;> rfl

/-- C8 counterexample: the table named filtered_df consumed by every tab
after line 60 is not the Filter Engine output; the suspicious flag has been
written onto it. -/
theorem suspicious_write_modifies_filtered_table :
    filtered_df_final [row0] critAll ≠ applyFilter (deriveMetrics [row0]) critAll := by
  have hcol : (filtered_df_final [row0] critAll).map (fun r => r.suspicious) ≠
      (applyFilter (deriveMetrics [row0]) critAll).map (fun r => r.suspicious) := by
    decide
  exact fun h => hcol (congrArg (fun t => t.map (fun r => r.suspicious)) h)

/-- C8 amended: the Detector writes the suspicious column and the Metric
Deriver writes the revenue_generated column onto their tables in place, but
each write changes nothing besides its own column: erasing that column
recovers the input table exactly (rows, order and all other fields). -/
theorem stage_writes_only_own_column (l : List Row) :
    (addSuspicious l).map eraseFlag = l.map eraseFlag ∧
    (deriveMetrics l).map eraseRevenue = l.map eraseRevenue := by
  constructor
  · simp only [addSuspicious, List.map_map]
    rfl
  · simp only [deriveMetrics, List.map_map]
    rfl

/-- C2: the risk bands of lines 162-167 are exactly ratio < 5 for LOW,
5 <= ratio < 15 for MEDIUM, 15 <= ratio for HIGH, and the empty table yields
ratio 0 and LOW instead of a division fault. -/
theorem risk_level_bands (l : List Row) :
    (risk_level (fraud_probability l) = RiskLevel.LOW ↔ fraud_probability l < 5) ∧
    (risk_level (fraud_probability l) = RiskLevel.MEDIUM ↔
      5 ≤ fraud_probability l ∧ fraud_probability l < 15) ∧
    (risk_level (fraud_probability l) = RiskLevel.HIGH ↔ 15 ≤ fraud_probability l) ∧
    fraud_probability ([] : List Row) = 0 ∧
    risk_level (fraud_probability ([] : List Row)) = RiskLevel.LOW := by
  refine ⟨?_, ?_, ?_, by decide, by decide⟩
  · constructor
    · intro hm
      unfold risk_level at hm
      split_ifs at hm with h5 h15
      exact h5
    · intro h5
      unfold risk_level
      rw [if_pos h5]
  · constructor
    · intro hm
      unfold risk_level at hm
      split_ifs at hm with h5 h15
      exact ⟨not_lt.mp h5, h15⟩
    · rintro ⟨ha, hb⟩
      unfold risk_level
      rw [if_neg (not_lt.mpr ha), if_pos hb]
  · constructor
    · intro hm
      unfold risk_level at hm
      split_ifs at hm with h5 h15
      exact not_lt.mp h15
    · intro ha
      unfold risk_level
      rw [if_neg (not_lt.mpr (by linarith)), if_neg (not_lt.mpr ha)]

end Dashboard

namespace Dashboard

/-- Lower bound for the linear-interpolation quantile: on a nonempty list it
is defined and at least some element of the list (in fact at least the
minimum). -/
theorem quantileLinear_ge_min {q : ℚ} (hq0 : 0 ≤ q) (hq1 : q ≤ 1)
    {s : List ℚ} (hne : s ≠ []) :
    ∃ t, quantileLinear q s = some t ∧ ∃ m ∈ s, m ≤ t := by
  have hperm := List.perm_insertionSort (· ≤ ·) s
  have hlen : (s.insertionSort (· ≤ ·)).length = s.length := hperm.length_eq
  have hsorted : List.Sorted (· ≤ ·) (s.insertionSort (· ≤ ·)) :=
    List.sorted_insertionSort _ s
  have hn : 0 < s.length := List.length_pos.mpr hne
  have hn1 : (0 : ℚ) ≤ (s.length : ℚ) - 1 := by
    have h1 : (1 : ℚ) ≤ (s.length : ℚ) := by exact_mod_cast hn
    linarith
  have hh0 : 0 ≤ q * ((s.length : ℚ) - 1) := mul_nonneg hq0 hn1
  have hhle : q * ((s.length : ℚ) - 1) ≤ (s.length : ℚ) - 1 :=
    mul_le_of_le_one_left hn1 hq1
  have hfl0 : (0 : ℤ) ≤ ⌊q * ((s.length : ℚ) - 1)⌋ := Int.floor_nonneg.mpr hh0
  have hfl_lt : ⌊q * ((s.length : ℚ) - 1)⌋ < (s.length : ℤ) := by
    have hcast : ((⌊q * ((s.length : ℚ) - 1)⌋ : ℤ) : ℚ) < (s.length : ℚ) :=
      lt_of_le_of_lt (le_trans (Int.floor_le _) hhle) (by linarith)
    exact_mod_cast hcast
  have hqeq : quantileLinear q s =
      some ((s.insertionSort (· ≤ ·)).getD ((⌊q * ((s.length : ℚ) - 1)⌋).toNat) 0 +
        (q * ((s.length : ℚ) - 1) - (((⌊q * ((s.length : ℚ) - 1)⌋).toNat : ℕ) : ℚ)) *
          ((s.insertionSort (· ≤ ·)).getD ((⌊q * ((s.length : ℚ) - 1)⌋).toNat + 1)
              ((s.insertionSort (· ≤ ·)).getD ((⌊q * ((s.length : ℚ) - 1)⌋).toNat) 0) -
            (s.insertionSort (· ≤ ·)).getD ((⌊q * ((s.length : ℚ) - 1)⌋).toNat) 0)) := by
    simp only [quantileLinear, if_neg hne]
  set i : ℕ := (⌊q * ((s.length : ℚ) - 1)⌋).toNat with hidef
  have hilt : i < s.length := by omega
  have hiq : (i : ℚ) = ((⌊q * ((s.length : ℚ) - 1)⌋ : ℤ) : ℚ) := by
    rw [hidef]
    exact_mod_cast Int.toNat_of_nonneg hfl0
  have hgamma : 0 ≤ q * ((s.length : ℚ) - 1) - (i : ℚ) := by
    rw [hiq]
    exact sub_nonneg.mpr (Int.floor_le _)
  have hilt2 : i < (s.insertionSort (· ≤ ·)).length := by
    rw [hlen]
    exact hilt
  have h0lt : 0 < (s.insertionSort (· ≤ ·)).length := by
    rw [hlen]
    exact hn
  have hmem : (s.insertionSort (· ≤ ·)).get ⟨0, h0lt⟩ ∈ s :=
    hperm.subset (List.get_mem _ 0 h0lt)
  have hm_le_vi : (s.insertionSort (· ≤ ·)).get ⟨0, h0lt⟩ ≤
      (s.insertionSort (· ≤ ·)).get ⟨i, hilt2⟩ :=
    hsorted.rel_get_of_le (by simp [Fin.mk_le_mk])
  have hvi_getD : (s.insertionSort (· ≤ ·)).getD i 0 =
      (s.insertionSort (· ≤ ·)).get ⟨i, hilt2⟩ := by
    rw [List.getD_eq_getElem _ _ hilt2, List.get_eq_getElem]
  have hvj_ge : (s.insertionSort (· ≤ ·)).getD i 0 ≤
      (s.insertionSort (· ≤ ·)).getD (i + 1) ((s.insertionSort (· ≤ ·)).getD i 0) := by
    by_cases hj : i + 1 < (s.insertionSort (· ≤ ·)).length
    · rw [List.getD_eq_getElem _ _ hj, hvi_getD]
      have h4 := hsorted.rel_get_of_le
        (a := ⟨i, hilt2⟩) (b := ⟨i + 1, hj⟩) (by simp [Fin.mk_le_mk])
      rw [List.get_eq_getElem, List.get_eq_getElem] at h4
      exact h4
    · rw [List.getD_eq_default _ _ (not_lt.mp hj)]
  refine ⟨_, hqeq, (s.insertionSort (· ≤ ·)).get ⟨0, h0lt⟩, hmem, ?_⟩
  have hstep : (s.insertionSort (· ≤ ·)).getD i 0 ≤
      (s.insertionSort (· ≤ ·)).getD i 0 +
        (q * ((s.length : ℚ) - 1) - (i : ℚ)) *
          ((s.insertionSort (· ≤ ·)).getD (i + 1) ((s.insertionSort (· ≤ ·)).getD i 0) -
            (s.insertionSort (· ≤ ·)).getD i 0) :=
    le_add_of_nonneg_right (mul_nonneg hgamma (sub_nonneg.mpr hvj_ge))
  calc (s.insertionSort (· ≤ ·)).get ⟨0, h0lt⟩
      ≤ (s.insertionSort (· ≤ ·)).getD i 0 := by
        rw [hvi_getD]
        exact hm_le_vi
    _ ≤ _ := hstep

end Dashboard

namespace Dashboard

/-- C1: the flagged table is the filtered table with the per-row flag column
written in, and a row is flagged iff its engagement strictly exceeds the 0.90
linear-interpolation quantile of engagement recomputed over that same
filtered table and its roi is at most zero. -/
theorem suspicious_iff_quantile_and_roi (l : List Row) (r : Row) :
    addSuspicious l = l.map (fun x => { x with suspicious := some (suspiciousFlag l x) }) ∧
    (suspiciousFlag l r = true ↔
      ∃ t, quantileLinear (9 / 10) (l.map (fun x => x.engagement)) = some t ∧
        t < r.engagement ∧ r.roi ≤ 0) := by
  refine ⟨addSuspicious_eq l, ?_⟩
  cases hq : quantileLinear (9 / 10) (l.map (fun x => x.engagement)) with
  | none =>
    simp [suspiciousFlag, high_engagement_threshold, hq]
  | some t =>
    simp [suspiciousFlag, high_engagement_threshold, hq, decide_eq_true_iff]

/-- C3: modelled from the spec, a row is flagged high_impact iff its
engagement is at least the 0.80 quantile cutoff of the filtered set, its
engagement_rate is defined and at least the NaN-excluded mean rate of the
filtered set, and its roi is strictly positive. -/
theorem high_impact_iff_cutoffs (l : List Row) (r : Row) :
    highImpactFlag l r = true ↔
      ∃ cutoff a er, engagement_cutoff l = some cutoff ∧ avg_rate l = some a ∧
        r.engagement_rate = some er ∧ cutoff ≤ r.engagement ∧ a ≤ er ∧ 0 < r.roi := by
  cases hc : engagement_cutoff l <;> cases ha : avg_rate l <;>
      cases hr : r.engagement_rate <;>
    simp [highImpactFlag, hc, ha, hr, decide_eq_true_iff, and_assoc]

/-- C10: on every nonempty filtered table some row is not flagged suspicious,
because the minimal engagement never strictly exceeds the 0.90 quantile; in
particular when all rows share one engagement value no row is flagged. -/
theorem min_engagement_row_not_flagged (l : List Row) (hne : l ≠ []) :
    (∃ x ∈ addSuspicious l, x.suspicious = some false) ∧
    ∀ v, (∀ r ∈ l, r.engagement = v) →
      ∀ x ∈ addSuspicious l, x.suspicious = some false := by
  have hmape : l.map (fun x => x.engagement) ≠ [] := by
    simpa using hne
  obtain ⟨t, hqt, m, hm, hmt⟩ :=
    quantileLinear_ge_min (q := 9 / 10) (by norm_num) (by norm_num) hmape
  obtain ⟨r0, hr0, hr0e⟩ := List.mem_map.mp hm
  have hflag : ∀ r1, r1.engagement ≤ t → suspiciousFlag l r1 = false := by
    intro r1 hle
    unfold suspiciousFlag high_engagement_threshold
    rw [hqt]
    simp [not_lt.mpr hle]
  constructor
  · refine ⟨{ r0 with suspicious := some (suspiciousFlag l r0) }, ?_, ?_⟩
    · rw [addSuspicious_eq]
      exact List.mem_map_of_mem _ hr0
    · show some (suspiciousFlag l r0) = some false
      rw [hflag r0 (by rw [hr0e]; exact hmt)]
  · intro v hv x hx
    rw [addSuspicious_eq] at hx
    obtain ⟨r1, hr1, rfl⟩ := List.mem_map.mp hx
    have hmv : m = v := by
      rw [← hr0e]
      exact hv r0 hr0
    have hle : r1.engagement ≤ t := by
      rw [hv r1 hr1, ← hmv]
      exact hmt
    show some (suspiciousFlag l r1) = some false
    rw [hflag r1 hle]

/-- C10 witness: the nonemptiness hypothesis discharged on a concrete
one-row table. -/
theorem min_engagement_row_not_flagged_witness :
    ([row0] : List Row) ≠ [] ∧
    ((∃ x ∈ addSuspicious [row0], x.suspicious = some false) ∧
      ∀ v, (∀ r ∈ [row0], r.engagement = v) →
        ∀ x ∈ addSuspicious [row0], x.suspicious = some false) :=
  ⟨by decide, min_engagement_row_not_flagged [row0] (by decide)⟩

end Dashboard

namespace Dashboard

/-- The scan result is an entry of the scanned list with maximal value. -/
theorem firstMaxAux_spec {κ : Type} (x : κ × ℚ) (xs : List (κ × ℚ)) :
    firstMaxAux x xs ∈ x :: xs ∧ ∀ p ∈ x :: xs, p.2 ≤ (firstMaxAux x xs).2 := by
  induction xs generalizing x with
  | nil =>
    refine ⟨List.mem_cons_self _ _, ?_⟩
    intro p hp
    rcases List.mem_cons.mp hp with rfl | hp2
    · exact le_refl _
    · exact absurd hp2 (List.not_mem_nil p)
  | cons y ys ih =>
    obtain ⟨hmem, hmax⟩ := ih y
    have hunf : firstMaxAux x (y :: ys) =
        if x.2 < (firstMaxAux y ys).2 then firstMaxAux y ys else x := rfl
    rw [hunf]
    by_cases hlt : x.2 < (firstMaxAux y ys).2
    · rw [if_pos hlt]
      refine ⟨List.mem_cons_of_mem _ hmem, ?_⟩
      intro p hp
      rcases List.mem_cons.mp hp with rfl | hp2
      · exact le_of_lt hlt
      · exact hmax p hp2
    · rw [if_neg hlt]
      refine ⟨List.mem_cons_self _ _, ?_⟩
      intro p hp
      rcases List.mem_cons.mp hp with rfl | hp2
      · exact le_refl _
      · exact le_trans (hmax p hp2) (not_lt.mp hlt)

/-- With strictly increasing keys, the scan breaks ties towards the smallest
key: every entry attaining the maximal value has a key at least the chosen
one. -/
theorem firstMaxAux_tie {κ : Type} [LinearOrder κ] (x : κ × ℚ) (xs : List (κ × ℚ))
    (hsort : List.Pairwise (fun a b : κ × ℚ => a.1 < b.1) (x :: xs)) :
    ∀ p ∈ x :: xs, p.2 = (firstMaxAux x xs).2 → (firstMaxAux x xs).1 ≤ p.1 := by
  induction xs generalizing x with
  | nil =>
    intro p hp _
    rcases List.mem_cons.mp hp with rfl | hp2
    · exact le_refl _
    · exact absurd hp2 (List.not_mem_nil p)
  | cons y ys ih =>
    obtain ⟨hx, hrest⟩ := List.pairwise_cons.mp hsort
    intro p hp hpv
    have hunf : firstMaxAux x (y :: ys) =
        if x.2 < (firstMaxAux y ys).2 then firstMaxAux y ys else x := rfl
    rw [hunf] at hpv ⊢
    by_cases hlt : x.2 < (firstMaxAux y ys).2
    · rw [if_pos hlt]
      rw [if_pos hlt] at hpv
      rcases List.mem_cons.mp hp with rfl | hp2
      · exact absurd (hpv ▸ hlt) (lt_irrefl _)
      · exact ih y hrest p hp2 hpv
    · rw [if_neg hlt]
      rw [if_neg hlt] at hpv
      rcases List.mem_cons.mp hp with rfl | hp2
      · exact le_refl _
      · exact le_of_lt (hx p hp2)

/-- On a nonempty series, the idxmax model returns an entry of the series
whose value is maximal. -/
theorem firstMax_spec {κ : Type} (ps : List (κ × ℚ)) (hne : ps ≠ []) :
    ∃ m, firstMax ps = some m ∧ m ∈ ps ∧ ∀ p ∈ ps, p.2 ≤ m.2 := by
  cases ps with
  | nil => exact absurd rfl hne
  | cons x xs =>
    exact ⟨firstMaxAux x xs, rfl, (firstMaxAux_spec x xs).1, (firstMaxAux_spec x xs).2⟩

/-- When the series keys are strictly increasing, the idxmax model breaks
ties towards the smallest key. -/
theorem firstMax_tie_min_key {κ : Type} [LinearOrder κ] (ps : List (κ × ℚ))
    (hsort : List.Pairwise (fun a b : κ × ℚ => a.1 < b.1) ps)
    {m : κ × ℚ} (hm : firstMax ps = some m) :
    ∀ p ∈ ps, p.2 = m.2 → m.1 ≤ p.1 := by
  cases ps with
  | nil => simp [firstMax] at hm
  | cons x xs =>
    have hmx : firstMaxAux x xs = m := by
      have : some (firstMaxAux x xs) = some m := hm
      exact Option.some.injEq _ _ ▸ this
    subst hmx
    exact firstMaxAux_tie x xs hsort

/-- A nonempty table yields a nonempty aggregation. -/
theorem groupMean_ne_nil {κ : Type} [LinearOrder κ] [DecidableEq κ]
    (key : Row → κ) (val : Row → ℚ) {l : List Row} (hne : l ≠ []) :
    groupMean key val l ≠ [] := by
  intro hcontra
  have hsortnil : ((l.map key).dedup.insertionSort (· ≤ ·)) = [] := by
    simpa [groupMean] using hcontra
  have hlen := congrArg List.length hsortnil
  rw [(List.perm_insertionSort (· ≤ ·) (l.map key).dedup).length_eq] at hlen
  have hdnil : (l.map key).dedup = [] := List.length_eq_zero.mp hlen
  have hmapnil : l.map key = [] := (List.dedup_eq_nil _).mp hdnil
  exact hne (List.map_eq_nil_iff.mp hmapnil)

/-- The aggregation keys are strictly increasing: groupby sorts the distinct
keys ascending. -/
theorem groupMean_keys_pairwise {κ : Type} [LinearOrder κ] [DecidableEq κ]
    (key : Row → κ) (val : Row → ℚ) (l : List Row) :
    List.Pairwise (fun a b : κ × ℚ => a.1 < b.1) (groupMean key val l) := by
  unfold groupMean
  rw [List.pairwise_map]
  have hnd : ((l.map key).dedup.insertionSort (· ≤ ·)).Nodup :=
    (List.perm_insertionSort (· ≤ ·) (l.map key).dedup).nodup_iff.mpr
      (List.nodup_dedup _)
  have hsorted : List.Sorted (· ≤ ·) ((l.map key).dedup.insertionSort (· ≤ ·)) :=
    List.sorted_insertionSort _ _
  exact hsorted.lt_of_le hnd

/-- C7 amended: on a nonempty filtered table, best_hour returns the key of an
aggregation row of maximal mean engagement, and on exact ties the smallest
key (the first row in the ascending key order that groupby emits), not the
first-seen key. -/
theorem best_hour_max_then_smallest_key (l : List Row) (hne : l ≠ []) :
    ∃ k v, best_hour l = Except.ok k ∧ (k, v) ∈ hourly l ∧
      (∀ p ∈ hourly l, p.2 ≤ v) ∧ ∀ p ∈ hourly l, p.2 = v → k ≤ p.1 := by
  obtain ⟨m, hfm, hmem, hmax⟩ :=
    firstMax_spec (hourly l) (groupMean_ne_nil _ _ hne)
  have htie := firstMax_tie_min_key (hourly l)
    (groupMean_keys_pairwise _ _ l) hfm
  refine ⟨m.1, m.2, ?_, ?_, hmax, htie⟩
  · simp [best_hour, argmaxKey, hfm]
  · simpa using hmem

end Dashboard

namespace Dashboard

/-- C7 counterexample: two rows with equal mean engagement, posted at hour 5
first and hour 3 second.  The code (groupby sorts keys, idxmax takes the
first maximal row) answers hour 3, while the first-seen tie-break the claim
states would answer hour 5. -/
theorem tie_break_smallest_key_not_first_seen :
    best_hour [rowH5, rowH3] = Except.ok 3 ∧
    bestHourFirstSeen [rowH5, rowH3] = Except.ok 5 ∧
    best_hour [rowH5, rowH3] ≠ bestHourFirstSeen [rowH5, rowH3] := by
  have hf3 : [rowH5, rowH3].filter (fun r => decide (r.post_hour = 3)) = [rowH3] := by
    decide
  have hf5 : [rowH5, rowH3].filter (fun r => decide (r.post_hour = 5)) = [rowH5] := by
    decide
  have hcode : best_hour [rowH5, rowH3] = Except.ok 3 := by
    have hh : hourly [rowH5, rowH3] = [(3, 10), (5, 10)] := by
      have hkeys : (([rowH5, rowH3].map (fun r => r.post_hour)).dedup).insertionSort
          (· ≤ ·) = [3, 5] := by
        decide
      rw [hourly, groupMean, hkeys]
      simp only [List.map, hf3, hf5]
      norm_num [rowH5, rowH3, row0, listMean]
    rw [best_hour, hh]
    simp [argmaxKey, firstMax, firstMaxAux]
  have hspec : bestHourFirstSeen [rowH5, rowH3] = Except.ok 5 := by
    have hkeys2 : firstSeenKeys ([rowH5, rowH3].map (fun r => r.post_hour)) = [5, 3] := by
      decide
    have hg : groupMeanFirstSeen (fun r => r.post_hour) (fun r => r.engagement)
        [rowH5, rowH3] = [(5, 10), (3, 10)] := by
      rw [groupMeanFirstSeen, hkeys2]
      simp only [List.map, hf3, hf5]
      norm_num [rowH5, rowH3, row0, listMean]
    rw [bestHourFirstSeen, hg]
    simp [argmaxKey, firstMax, firstMaxAux]
  refine ⟨hcode, hspec, ?_⟩
  rw [hcode, hspec]
  simp

/-- C7 witness: the amended tie-break statement instantiated on the concrete
two-row tie. -/
theorem best_hour_max_then_smallest_key_witness :
    ([rowH5, rowH3] : List Row) ≠ [] ∧
    (∃ k v, best_hour [rowH5, rowH3] = Except.ok k ∧
      (k, v) ∈ hourly [rowH5, rowH3] ∧
      (∀ p ∈ hourly [rowH5, rowH3], p.2 ≤ v) ∧
      ∀ p ∈ hourly [rowH5, rowH3], p.2 = v → k ≤ p.1) :=
  ⟨by decide, best_hour_max_then_smallest_key [rowH5, rowH3] (by decide)⟩

end Dashboard
